import Mathlib

/-!
Verification development for the disco job module (lib/disco/job.py).

The development shallowly embeds the Job Specification model (class JobDict),
the Parameter Bag (class Params) and the pack/unpack protocol.  Pure Python
values become Lean values; the fallible constructor JobDict.__init__ becomes a
function into Except.  External collaborators that live outside the given
source file (disco.util, disco.dencode, disco.modutil) are modelled from the
design document as parameters or as small definitions marked as such.
-/

deriving instance DecidableEq for Except

namespace DiscoJob

/-- A URL is a plain string. -/
abbrev Url := String

/-- A raw input descriptor: either a single address or a redundant
replica list of addresses (see the input documentation of JobDict). -/
inductive RawInput
  | single (u : Url)
  | multi (us : List Url)
  deriving Repr, DecidableEq

/-- Opaque function values (map, reduce, stream functions and so on).  The
named constructors are the defaults appearing in JobDict.defaults; user
supplies arbitrary callables, modelled by the user constructor. -/
inductive FuncVal
  | noop
  | defaultPartition
  | chainReader
  | mapInputStream
  | mapOutputStream
  | discoOutputStream
  | reduceInputStream
  | reduceOutputStream
  | user (n : String)
  deriving Repr, DecidableEq

/-- The required_files value: either a list of paths (to be expanded by
util.pack_files) or a mapping filename to byte content. -/
inductive RFiles
  | paths (ps : List String)
  | files (m : List (String × String))
  deriving Repr, DecidableEq

/-- An entry of required_modules as produced by find_modules: either a bare
module name, or a (name, path) pair carrying the module source location
(the pair shape is what util.iskv recognizes). -/
inductive ModEntry
  | name (n : String)
  | kv (n p : String)
  deriving Repr, DecidableEq

/-- The scheduler policy record (keys of the scheduler default dict). -/
structure Scheduler where
  force_local : Bool
  force_remote : Bool
  max_cores : Int
  deriving Repr, DecidableEq

/-- A user-supplied scheduler override: any subset of the scheduler keys,
merged onto the defaults with dict.update semantics. -/
structure SchedulerOverride where
  force_local : Option Bool := none
  force_remote : Option Bool := none
  max_cores : Option Int := none
  deriving Repr, DecidableEq

/-- The default scheduler policy from JobDict.defaults. -/
def defaultScheduler : Scheduler :=
  { force_local := false, force_remote := false, max_cores := (2 : Int) ^ 31 }

/-- Merge a scheduler override onto a base policy:
base.copy() followed by update(override). -/
def mergeScheduler (d : Scheduler) (ov : SchedulerOverride) : Scheduler :=
  { force_local := ov.force_local.getD d.force_local
    force_remote := ov.force_remote.getD d.force_remote
    max_cores := ov.max_cores.getD d.max_cores }

/-- View a full scheduler policy as an override that sets every key; this is
what feeding an already-merged policy back through construction looks like. -/
def toOverride (s : Scheduler) : SchedulerOverride :=
  { force_local := some s.force_local
    force_remote := some s.force_remote
    max_cores := some s.max_cores }

/-- The option record passed to JobDict.__init__ after user overrides are
merged onto JobDict.defaults (user value wins per key).  Field defaults are
the entries of the defaults table.  jobhome, worker, owner and version come
from collaborators outside the source file (worker.jobhome, DiscoSettings,
sys.version_info); they are plain strings, modelled as constants. -/
structure JobOpts where
  input : List RawInput := []
  jobhome : String := "jobhome"
  worker : String := "DISCO_WORKER"
  mapQ : Bool := false
  reduceQ : Bool := false
  map : Option FuncVal := none
  map_init : FuncVal := .noop
  map_reader : Option FuncVal := none
  map_input_stream : List FuncVal := [.mapInputStream]
  map_output_stream : List FuncVal := [.mapOutputStream, .discoOutputStream]
  combiner : Option FuncVal := none
  partition : FuncVal := .defaultPartition
  reduce : Option FuncVal := none
  reduce_init : FuncVal := .noop
  reduce_reader : Option FuncVal := some .chainReader
  reduce_input_stream : List FuncVal := [.reduceInputStream]
  reduce_output_stream : List FuncVal := [.reduceOutputStream, .discoOutputStream]
  ext_params : List (String × String) := []
  merge_partitions : Bool := false
  nr_reduces : Int := 0
  params : List (String × String) := []
  partitions : Option Int := some 1
  pfx : String := ""
  profile : Bool := false
  required_files : RFiles := .files []
  required_modules : Option (List ModEntry) := none
  scheduler : SchedulerOverride := {}
  save : Bool := false
  sort : Bool := false
  status_interval : Int := 100000
  owner : String := "DISCO_JOB_OWNER"
  version : String := "2.6"
  deriving Repr, DecidableEq

/-- A fully constructed JobDict: the state after __init__ returns.  The
pfx field models the key named prefix in the source. -/
structure JobDict where
  input : List (List Url)
  jobhome : String
  worker : String
  mapQ : Bool
  reduceQ : Bool
  map : Option FuncVal
  map_init : FuncVal
  map_reader : Option FuncVal
  map_input_stream : List FuncVal
  map_output_stream : List FuncVal
  combiner : Option FuncVal
  partition : FuncVal
  reduce : Option FuncVal
  reduce_init : FuncVal
  reduce_reader : Option FuncVal
  reduce_input_stream : List FuncVal
  reduce_output_stream : List FuncVal
  ext_params : List (String × String)
  merge_partitions : Bool
  nr_reduces : Int
  params : List (String × String)
  partitions : Int
  pfx : String
  profile : Bool
  required_files : RFiles
  required_modules : List ModEntry
  scheduler : Scheduler
  save : Bool
  sort : Bool
  status_interval : Int
  owner : String
  version : String
  deriving Repr, DecidableEq

/-- Errors construction and unpacking can surface.  The source module never
imports DiscoError, so each raise DiscoError(msg) statement actually raises
NameError at the name lookup; that outcome is nameErr.  valueErr models the
ValueError from max() on an empty sequence, indexErr the IndexError from
indexing an empty list, codecErr a failure of the opaque object codec. -/
inductive JobError
  | nameErr (n : String)
  | valueErr
  | indexErr
  | codecErr
  deriving Repr, DecidableEq

/-- External collaborators used during construction and packing, not defined
in the source file.  Modelled from the spec: dependency discovery
(find_modules), the partition-index reader (util.read_index) and the file
expander (util.pack_files) are black boxes with the listed signatures. -/
structure Collab where
  find_modules : List FuncVal → List ModEntry
  read_index : Url → List (Nat × Url)
  pack_files : List String → List (String × String)

/-- Modelled from the spec: util.iterify promotes a single item to a
one-element sequence and leaves an iterable as is. -/
def iterify : RawInput → List Url
  | .single u => [u]
  | .multi us => us

/-- Modelled from the spec: the address resolver util.urllist.  The design
document fixes resolution of concrete descriptors by its normalization
example (single items and replica lists pass through); the directory
expansion carried out when listdirs is set is outside the modelled
fragment, so the resolver returns the descriptor as its sole resolution. -/
def urllist (i : RawInput) (_listdirs : Bool) : List RawInput := [i]

/-- Input normalization from __init__:
a list comprehension over i in input, url in urllist(i, listdirs),
collecting list(iterify(url)). -/
def normalizeInput (inp : List RawInput) (listdirs : Bool) : List (List Url) :=
  (inp.map (fun i => (urllist i listdirs).map iterify)).flatten

/-- The test url.startswith(p), computed on the character lists of the two
strings so that concrete instances evaluate inside the kernel. -/
def strStartsWith (u p : String) : Bool :=
  p.data.isPrefixOf u.data

/-- The input_is_partitioned property: on truthy (non-empty) input it
returns all urls starting with dir://, otherwise it falls off the end of
the function body and returns None. -/
def inputIsPartitionedOpt (input : List (List Url)) : Option Bool :=
  if input.isEmpty then none
  else some (input.all (fun urls => urls.all (fun u => strStartsWith u "dir://")))

/-- Python truthiness of an optional boolean: None is falsy. -/
def truthy : Option Bool → Bool
  | some b => b
  | none => false

/-- The statement partitions = partitions or 0: None becomes 0 and an
integer passes through (0 or 0 is 0). -/
def coercePartitions : Option Int → Int
  | none => 0
  | some n => n

/-- Flatten an optional callable the way util.iterify followed by the
callable filter does: None contributes nothing, a function contributes
itself. -/
def optFuncs : Option FuncVal → List FuncVal
  | none => []
  | some f => [f]

/-- All callable values across the func keys of the option set, the input
handed to find_modules.  The source iterates a Python set (unordered); a
fixed order is chosen here. -/
def allFuncs (o : JobOpts) : List FuncVal :=
  optFuncs o.map ++ [o.map_init] ++ optFuncs o.map_reader ++
    optFuncs o.combiner ++ [o.partition] ++ optFuncs o.reduce ++
    [o.reduce_init] ++ optFuncs o.reduce_reader ++
    o.map_input_stream ++ o.map_output_stream ++
    o.reduce_input_stream ++ o.reduce_output_stream

/-- Walk the normalized input left to right collecting the partition ids
read from the first URL of each entry (read_index(dir[0])); an empty entry
raises IndexError at dir[0]. -/
def gatherIndices (c : Collab) : List (List Url) → Except JobError (List Nat)
  | [] => .ok []
  | dir :: rest =>
    match dir with
    | [] => .error .indexErr
    | u :: _ =>
      match gatherIndices c rest with
      | .error e => .error e
      | .ok ids => .ok ((c.read_index u).map Prod.fst ++ ids)

/-- Python max() over a list of naturals; None signals the ValueError that
max raises on an empty sequence. -/
def maxNat? : List Nat → Option Nat
  | [] => none
  | x :: xs => some (xs.foldl Nat.max x)

/-- Step 5 of construction: derive nr_reduces from the presence of map,
the coerced partitions value and the partitioning of the input. -/
def nrStep (c : Collab) (hasMap : Bool) (inp : List (List Url)) (parts : Int) :
    Except JobError Int :=
  if hasMap then
    .ok (if parts = 0 then 1 else parts)
  else if truthy (inputIsPartitionedOpt inp) then
    match gatherIndices c inp with
    | .error e => .error e
    | .ok ids =>
      match maxNat? ids with
      | some m => .ok (1 + (m : Int))
      | none => .error .valueErr
  else
    .ok 1

/-- Step 6 of construction: the merge_partitions check.  The source intends
to raise DiscoError, a name the module never imports, so the failing branch
raises NameError instead. -/
def mergeStep (mp : Bool) (inp : List (List Url)) (parts nr0 : Int) :
    Except JobError Int :=
  if mp then
    if parts ≠ 0 ∨ truthy (inputIsPartitionedOpt inp) then .ok 1
    else .error (.nameErr "DiscoError")
  else .ok nr0

/-- Step 7 of construction: merge the scheduler override onto the default
policy and reject max_cores below one.  The raise here has the same
unimported DiscoError name. -/
def schedStep (ov : SchedulerOverride) : Except JobError Scheduler :=
  if (mergeScheduler defaultScheduler ov).max_cores < 1 then
    .error (.nameErr "DiscoError")
  else .ok (mergeScheduler defaultScheduler ov)

/-- Assemble the final JobDict record from the options and the derived
values.  Every non-derived field is copied from the option set. -/
def assemble (o : JobOpts) (inp : List (List Url)) (rm : List ModEntry)
    (parts nr : Int) (sc : Scheduler) : JobDict :=
  { input := inp
    jobhome := o.jobhome
    worker := o.worker
    mapQ := o.map.isSome
    reduceQ := o.reduce.isSome
    map := o.map
    map_init := o.map_init
    map_reader := o.map_reader
    map_input_stream := o.map_input_stream
    map_output_stream := o.map_output_stream
    combiner := o.combiner
    partition := o.partition
    reduce := o.reduce
    reduce_init := o.reduce_init
    reduce_reader := o.reduce_reader
    reduce_input_stream := o.reduce_input_stream
    reduce_output_stream := o.reduce_output_stream
    ext_params := o.ext_params
    merge_partitions := o.merge_partitions
    nr_reduces := nr
    params := o.params
    partitions := parts
    pfx := o.pfx
    profile := o.profile
    required_files := o.required_files
    required_modules := rm
    scheduler := sc
    save := o.save
    sort := o.sort
    status_interval := o.status_interval
    owner := o.owner
    version := o.version }

/-- Step 2 of construction: required_modules kept when the user supplied
them, discovered over the callable func values otherwise. -/
def rmOf (c : Collab) (o : JobOpts) : List ModEntry :=
  match o.required_modules with
  | some ms => ms
  | none => c.find_modules (allFuncs o)

/-- JobDict.__init__ : discover required modules when unset, normalize the
input (directory listing enabled exactly when a map function is present),
coerce partitions, derive nr_reduces, apply the merge_partitions check,
merge and validate the scheduler, and set the two derived flags. -/
def construct (c : Collab) (o : JobOpts) : Except JobError JobDict :=
  match nrStep c o.map.isSome (normalizeInput o.input o.map.isSome)
      (coercePartitions o.partitions) with
  | .error e => .error e
  | .ok nr0 =>
    match mergeStep o.merge_partitions (normalizeInput o.input o.map.isSome)
        (coercePartitions o.partitions) nr0 with
    | .error e => .error e
    | .ok nr =>
      match schedStep o.scheduler with
      | .error e => .error e
      | .ok sc =>
        .ok (assemble o (normalizeInput o.input o.map.isSome) (rmOf c o)
              (coercePartitions o.partitions) nr sc)

/-- The default option record (no user overrides). -/
def defaultOpts : JobOpts := {}

/-- A concrete collaborator instance used by concrete evaluations:
discovery finds nothing, every partition directory index is empty,
file expansion yields nothing. -/
def cW : Collab :=
  { find_modules := fun _ => []
    read_index := fun _ => []
    pack_files := fun _ => [] }

/-- The universe of values an opaque (non-master) key can hold; the single
codec util.pack / util.unpack works uniformly over it. -/
inductive Val
  | vof (f : Option FuncVal)
  | vf (f : FuncVal)
  | vlf (fs : List FuncVal)
  | vss (l : List (String × String))
  | vb (b : Bool)
  | vi (n : Int)
  | vrf (r : RFiles)
  | vrm (ms : List ModEntry)
  | vs (s : String)
  deriving Repr, DecidableEq

/-- The paths contributed by required_modules entries that are key-value
pairs: o[1] for o in required_modules if iskv(o). -/
def modKvPaths (ms : List ModEntry) : List String :=
  ms.filterMap fun
    | .kv _ p => some p
    | .name _ => none

/-- Python dict.update on an association list: entries of u win, new keys
are appended.  Python dicts carry no guaranteed order here, so the order
of the merged list is a modelling choice. -/
def updateA (m u : List (String × String)) : List (String × String) :=
  m.filter (fun kv => decide (kv.1 ∉ u.map Prod.fst)) ++ u

/-- The required_files resolution at the top of pack: a falsy value ([] or
an empty dict) is reset to an empty dict, a truthy non-dict is expanded
through util.pack_files, a dict is kept. -/
def expandRF (c : Collab) (rf : RFiles) : List (String × String) :=
  match rf with
  | .paths ps => if ps.isEmpty then [] else c.pack_files ps
  | .files m => m

/-- The state of the JobDict after pack returns: required_files has been
resolved to a mapping and merged with the source bytes of the key-value
required_modules entries; no other field is touched. -/
def packState (c : Collab) (S : JobDict) : JobDict :=
  { S with required_files :=
      .files (updateA (expandRF c S.required_files)
                      (c.pack_files (modKvPaths S.required_modules))) }

/-- The wire record produced by pack: one slot per key of the defaults
table; master keys carry their value verbatim, every other key carries a
codec token.  The external wire encoder dencode is, per the spec, an exact
deterministic inverse pair, so the byte layer is elided and the record
itself stands for the payload. -/
structure JobPack (Tok : Type) where
  pfx : String
  input : List (List Url)
  jobhome : String
  worker : String
  owner : String
  nr_reduces : Int
  scheduler : Scheduler
  mapQ : Bool
  reduceQ : Bool
  map_t : Tok
  map_init_t : Tok
  map_reader_t : Tok
  map_input_stream_t : Tok
  map_output_stream_t : Tok
  combiner_t : Tok
  partition_t : Tok
  reduce_t : Tok
  reduce_init_t : Tok
  reduce_reader_t : Tok
  reduce_input_stream_t : Tok
  reduce_output_stream_t : Tok
  ext_params_t : Tok
  merge_partitions_t : Tok
  params_t : Tok
  partitions_t : Tok
  profile_t : Tok
  required_files_t : Tok
  required_modules_t : Tok
  save_t : Tok
  sort_t : Tok
  status_interval_t : Tok
  version_t : Tok
  deriving DecidableEq

/-- Build the wire record from a (post-mutation) JobDict state. -/
def packRecord (Tok : Type) (enc : Val → Tok) (S : JobDict) : JobPack Tok :=
  { pfx := S.pfx
    input := S.input
    jobhome := S.jobhome
    worker := S.worker
    owner := S.owner
    nr_reduces := S.nr_reduces
    scheduler := S.scheduler
    mapQ := S.mapQ
    reduceQ := S.reduceQ
    map_t := enc (.vof S.map)
    map_init_t := enc (.vf S.map_init)
    map_reader_t := enc (.vof S.map_reader)
    map_input_stream_t := enc (.vlf S.map_input_stream)
    map_output_stream_t := enc (.vlf S.map_output_stream)
    combiner_t := enc (.vof S.combiner)
    partition_t := enc (.vf S.partition)
    reduce_t := enc (.vof S.reduce)
    reduce_init_t := enc (.vf S.reduce_init)
    reduce_reader_t := enc (.vof S.reduce_reader)
    reduce_input_stream_t := enc (.vlf S.reduce_input_stream)
    reduce_output_stream_t := enc (.vlf S.reduce_output_stream)
    ext_params_t := enc (.vss S.ext_params)
    merge_partitions_t := enc (.vb S.merge_partitions)
    params_t := enc (.vss S.params)
    partitions_t := enc (.vi S.partitions)
    profile_t := enc (.vb S.profile)
    required_files_t := enc (.vrf S.required_files)
    required_modules_t := enc (.vrm S.required_modules)
    save_t := enc (.vb S.save)
    sort_t := enc (.vb S.sort)
    status_interval_t := enc (.vi S.status_interval)
    version_t := enc (.vs S.version) }

/-- JobDict.pack: resolve required_files (mutating the specification),
then build the wire record from the mutated state.  Returns the state the
specification is left in together with the record. -/
def pack (Tok : Type) (enc : Val → Tok) (c : Collab) (S : JobDict) :
    JobDict × JobPack Tok :=
  let S1 := packState c S
  (S1, packRecord Tok enc S1)

/-- Decode a token expected to hold an optional function; any other decode
outcome is a codec failure, as when util.unpack cannot rebuild the value. -/
def decOF (Tok : Type) (dec : Tok → Option Val) (t : Tok) :
    Except JobError (Option FuncVal) :=
  match dec t with
  | some (.vof f) => .ok f
  | _ => .error .codecErr

/-- Decode a token expected to hold a function. -/
def decF (Tok : Type) (dec : Tok → Option Val) (t : Tok) :
    Except JobError FuncVal :=
  match dec t with
  | some (.vf f) => .ok f
  | _ => .error .codecErr

/-- Decode a token expected to hold a function chain. -/
def decLF (Tok : Type) (dec : Tok → Option Val) (t : Tok) :
    Except JobError (List FuncVal) :=
  match dec t with
  | some (.vlf fs) => .ok fs
  | _ => .error .codecErr

/-- Decode a token expected to hold a string association list. -/
def decSS (Tok : Type) (dec : Tok → Option Val) (t : Tok) :
    Except JobError (List (String × String)) :=
  match dec t with
  | some (.vss l) => .ok l
  | _ => .error .codecErr

/-- Decode a token expected to hold a boolean. -/
def decB (Tok : Type) (dec : Tok → Option Val) (t : Tok) :
    Except JobError Bool :=
  match dec t with
  | some (.vb b) => .ok b
  | _ => .error .codecErr

/-- Decode a token expected to hold an integer. -/
def decI (Tok : Type) (dec : Tok → Option Val) (t : Tok) :
    Except JobError Int :=
  match dec t with
  | some (.vi n) => .ok n
  | _ => .error .codecErr

/-- Decode a token expected to hold a required_files value. -/
def decRF (Tok : Type) (dec : Tok → Option Val) (t : Tok) :
    Except JobError RFiles :=
  match dec t with
  | some (.vrf r) => .ok r
  | _ => .error .codecErr

/-- Decode a token expected to hold a required_modules list. -/
def decRM (Tok : Type) (dec : Tok → Option Val) (t : Tok) :
    Except JobError (List ModEntry) :=
  match dec t with
  | some (.vrm ms) => .ok ms
  | _ => .error .codecErr

/-- Decode a token expected to hold a string. -/
def decS (Tok : Type) (dec : Tok → Option Val) (t : Tok) :
    Except JobError String :=
  match dec t with
  | some (.vs s) => .ok s
  | _ => .error .codecErr

/-- JobDict.unpack: overlay the decoded record onto the defaults (the
record carries every key, so every default is overwritten), decode each
non-master key through the codec, and re-run the full construction of
JobDict.__init__ on the resulting option set.  The lib argument of the
source is None here, so no files are materialized. -/
def unpack (Tok : Type) (dec : Tok → Option Val) (c : Collab)
    (jp : JobPack Tok) : Except JobError JobDict := do
  let map ← decOF Tok dec jp.map_t
  let map_init ← decF Tok dec jp.map_init_t
  let map_reader ← decOF Tok dec jp.map_reader_t
  let map_input_stream ← decLF Tok dec jp.map_input_stream_t
  let map_output_stream ← decLF Tok dec jp.map_output_stream_t
  let combiner ← decOF Tok dec jp.combiner_t
  let part ← decF Tok dec jp.partition_t
  let reduce ← decOF Tok dec jp.reduce_t
  let reduce_init ← decF Tok dec jp.reduce_init_t
  let reduce_reader ← decOF Tok dec jp.reduce_reader_t
  let reduce_input_stream ← decLF Tok dec jp.reduce_input_stream_t
  let reduce_output_stream ← decLF Tok dec jp.reduce_output_stream_t
  let ext_params ← decSS Tok dec jp.ext_params_t
  let merge_partitions ← decB Tok dec jp.merge_partitions_t
  let params ← decSS Tok dec jp.params_t
  let partitions ← decI Tok dec jp.partitions_t
  let profile ← decB Tok dec jp.profile_t
  let required_files ← decRF Tok dec jp.required_files_t
  let required_modules ← decRM Tok dec jp.required_modules_t
  let save ← decB Tok dec jp.save_t
  let sort ← decB Tok dec jp.sort_t
  let status_interval ← decI Tok dec jp.status_interval_t
  let version ← decS Tok dec jp.version_t
  construct c
    { input := jp.input.map .multi
      jobhome := jp.jobhome
      worker := jp.worker
      mapQ := jp.mapQ
      reduceQ := jp.reduceQ
      map := map
      map_init := map_init
      map_reader := map_reader
      map_input_stream := map_input_stream
      map_output_stream := map_output_stream
      combiner := combiner
      partition := part
      reduce := reduce
      reduce_init := reduce_init
      reduce_reader := reduce_reader
      reduce_input_stream := reduce_input_stream
      reduce_output_stream := reduce_output_stream
      ext_params := ext_params
      merge_partitions := merge_partitions
      nr_reduces := jp.nr_reduces
      params := params
      partitions := some partitions
      pfx := jp.pfx
      profile := profile
      required_files := required_files
      required_modules := some required_modules
      scheduler := toOverride jp.scheduler
      save := save
      sort := sort
      status_interval := status_interval
      owner := jp.owner
      version := version }

/-- The option set that feeding a constructed JobDict back through
construction amounts to: the normalized input re-enters as replica lists,
partitions and required_modules are already resolved, the scheduler is the
already-merged policy. -/
def toOpts (S : JobDict) : JobOpts :=
  { input := S.input.map .multi
    jobhome := S.jobhome
    worker := S.worker
    mapQ := S.mapQ
    reduceQ := S.reduceQ
    map := S.map
    map_init := S.map_init
    map_reader := S.map_reader
    map_input_stream := S.map_input_stream
    map_output_stream := S.map_output_stream
    combiner := S.combiner
    partition := S.partition
    reduce := S.reduce
    reduce_init := S.reduce_init
    reduce_reader := S.reduce_reader
    reduce_input_stream := S.reduce_input_stream
    reduce_output_stream := S.reduce_output_stream
    ext_params := S.ext_params
    merge_partitions := S.merge_partitions
    nr_reduces := S.nr_reduces
    params := S.params
    partitions := some S.partitions
    pfx := S.pfx
    profile := S.profile
    required_files := S.required_files
    required_modules := some S.required_modules
    scheduler := toOverride S.scheduler
    save := S.save
    sort := S.sort
    status_interval := S.status_interval
    owner := S.owner
    version := S.version }

/-- The option set built from user overrides that touch only the
transparent (master) keys; every other key keeps its default. -/
def transparentOverride (p jh w ow : String) (inp : List RawInput)
    (nr : Int) (sch : SchedulerOverride) (mq rq : Bool) : JobOpts :=
  { pfx := p, jobhome := jh, worker := w, owner := ow, input := inp,
    nr_reduces := nr, scheduler := sch, mapQ := mq, reduceQ := rq }

/-- The Parameter Bag: the attribute dictionary of a Params instance,
names mapped to values.  Values are the plain data a task parameter can
hold; functions would also be possible, the claims need only data. -/
inductive PVal
  | pint (n : Int)
  | pstr (s : String)
  deriving Repr, DecidableEq

/-- The attribute dictionary of a Params object. -/
abbrev ParamsBag := List (String × PVal)

/-- Params.__getstate__: the non-private attributes (names not starting
with an underscore), each value encoded through util.pack. -/
def getstate {PTok : Type} (penc : PVal → PTok) (p : ParamsBag) :
    List (String × PTok) :=
  (p.filter (fun kv => !(strStartsWith kv.1 "_"))).map
    (fun kv => (kv.1, penc kv.2))

/-- Params.__setstate__ on a fresh instance: decode every entry through
util.unpack in iteration order and store it under its name; a decode
failure propagates. -/
def setstate {PTok : Type} (pdec : PTok → Option PVal) :
    List (String × PTok) → Option ParamsBag
  | [] => some []
  | kv :: t =>
    match pdec kv.2 with
    | none => none
    | some v =>
      match setstate pdec t with
      | none => none
      | some r => some ((kv.1, v) :: r)

/-- A fallback JobDict value used only to read a value out of a
successful construction. -/
def jdFallback : JobDict := assemble defaultOpts [] [] 1 1 defaultScheduler

/-- Overrides with a map function and a negative partitions value. -/
def oNegW : JobOpts :=
  { defaultOpts with map := some (.user "m"), partitions := some (-1) }

/-- The specification constructed from oNegW. -/
def sNegW : JobDict := (construct cW oNegW).toOption.getD jdFallback

/-- The specification constructed from the default overrides. -/
def s1W : JobDict := (construct cW defaultOpts).toOption.getD jdFallback

/-- Overrides with a map function, three partitions and merge_partitions
requested. -/
def oC3W : JobOpts :=
  { defaultOpts with map := some (.user "m"), partitions := some 3,
                     merge_partitions := true }

/-- The specification constructed from oC3W. -/
def sC3W : JobDict := (construct cW oC3W).toOption.getD jdFallback

/-- Overrides with a map function and five partitions. -/
def oC3bW : JobOpts :=
  { defaultOpts with map := some (.user "m"), partitions := some 5 }

/-- The specification constructed from oC3bW. -/
def sC3bW : JobDict := (construct cW oC3bW).toOption.getD jdFallback

/-- A collaborator whose partition-index reader reports indices 0 and 2
for every partitioned directory. -/
def cR : Collab :=
  { find_modules := fun _ => []
    read_index := fun _ => [(0, "x"), (2, "y")]
    pack_files := fun _ => [] }

/-- Reduce-only overrides over fully partitioned input. -/
def o4W : JobOpts :=
  { defaultOpts with input := [.single "dir://a", .multi ["dir://b"]] }

/-- The specification constructed from o4W under cR. -/
def s4W : JobDict := (construct cR o4W).toOption.getD jdFallback

/-- Reduce-only overrides over fully partitioned input with
merge_partitions requested. -/
def o4mW : JobOpts := { o4W with merge_partitions := true }

/-- The specification constructed from o4mW under cR. -/
def s4mW : JobDict := (construct cR o4mW).toOption.getD jdFallback

/-- Overrides requesting merge_partitions with partitions zero over
non-partitioned (empty) input. -/
def oMergeBadW : JobOpts :=
  { defaultOpts with merge_partitions := true, partitions := some 0 }

/-- Overrides with a scheduler override setting max_cores to zero. -/
def oSched0W : JobOpts :=
  { defaultOpts with scheduler := { max_cores := some 0 } }

/-- Transparent-key-only overrides used by the round-trip witness. -/
def o2W : JobOpts :=
  transparentOverride "j" "jobhome" "DISCO_WORKER" "own"
    [RawInput.single "http://x"] 0 {} false false

/-- The specification constructed from o2W. -/
def s2W : JobDict := (construct cW o2W).toOption.getD jdFallback

/-- Overrides whose input is one partitioned directory. -/
def o8W : JobOpts := { defaultOpts with input := [.single "dir://a"] }

/-- The specification constructed from o8W under cR (non-empty index). -/
def s8W : JobDict := (construct cR o8W).toOption.getD jdFallback

/-- Overrides whose required_files is an empty path list (a falsy
non-dict value). -/
def o9W : JobOpts := { defaultOpts with required_files := .paths [] }

/-- The specification constructed from o9W. -/
def s9W : JobDict := (construct cW o9W).toOption.getD jdFallback

/-- The Parameter Bag of the specification example: a = 1, b = "x" and a
private attribute _hidden = 99. -/
def pW : ParamsBag :=
  [("a", .pint 1), ("b", .pstr "x"), ("_hidden", .pint 99)]

/-- Normalization is the per-entry promotion map: every descriptor
resolves to itself and is then promoted by iterify. -/
theorem normalizeInput_eq (inp : List RawInput) (b : Bool) :
    normalizeInput inp b = inp.map iterify := by
  induction inp with
  | nil => rfl
  | cons i t ih =>
    simp only [normalizeInput, urllist, List.map_cons, List.flatten_cons,
      List.map_nil] at ih ⊢
    simpa using ih

/-- Feeding an already-normalized input back through normalization as
replica lists is the identity. -/
theorem normalizeInput_multi (l : List (List Url)) (b : Bool) :
    normalizeInput (l.map .multi) b = l := by
  rw [normalizeInput_eq]
  induction l with
  | nil => rfl
  | cons x t ih => simp only [List.map_cons, iterify] at ih ⊢; rw [ih]

/-- Coercion of an integer partitions value is the identity. -/
theorem coercePartitions_some (n : Int) : coercePartitions (some n) = n := rfl

/-- Merging a complete policy onto the defaults reproduces the policy. -/
theorem mergeScheduler_toOverride (s : Scheduler) :
    mergeScheduler defaultScheduler (toOverride s) = s := by
  cases s; rfl

/-- Filtering a list by absence of its own keys leaves nothing. -/
theorem filter_notMemSelf (u : List (String × String)) :
    u.filter (fun kv => decide (kv.1 ∉ u.map Prod.fst)) = [] := by
  rw [List.filter_eq_nil_iff]
  intro kv hkv
  simp only [decide_eq_true_eq, Decidable.not_not]
  exact List.mem_map_of_mem Prod.fst hkv

/-- Python dict.update is idempotent: applying the same update twice
changes nothing after the first application. -/
theorem updateA_idem (m u : List (String × String)) :
    updateA (updateA m u) u = updateA m u := by
  unfold updateA
  rw [List.filter_append, filter_notMemSelf, List.append_nil,
    List.filter_filter]
  congr 1
  apply List.filter_congr
  intro kv _
  simp

/-- The required_files resolution of pack is idempotent on the
specification state. -/
theorem packState_idem (c : Collab) (S : JobDict) :
    packState c (packState c S) = packState c S := by
  unfold packState expandRF
  dsimp only
  rw [updateA_idem]

/-- Inversion of construction: a successful construction decomposes into
its derivation steps. -/
theorem construct_inv (c : Collab) (o : JobOpts) (S : JobDict)
    (hok : construct c o = Except.ok S) :
    ∃ nr0 nr sc,
      nrStep c o.map.isSome (normalizeInput o.input o.map.isSome)
        (coercePartitions o.partitions) = Except.ok nr0 ∧
      mergeStep o.merge_partitions (normalizeInput o.input o.map.isSome)
        (coercePartitions o.partitions) nr0 = Except.ok nr ∧
      schedStep o.scheduler = Except.ok sc ∧
      S = assemble o (normalizeInput o.input o.map.isSome) (rmOf c o)
            (coercePartitions o.partitions) nr sc := by
  unfold construct at hok
  split at hok
  · exact absurd hok (by simp)
  next nr0 h1 =>
    split at hok
    · exact absurd hok (by simp)
    next nr h2 =>
      split at hok
      · exact absurd hok (by simp)
      next sc h3 =>
        exact ⟨nr0, nr, sc, h1, h2, h3, (Except.ok.injEq _ _).mp hok.symm⟩

/-- A successful nr_reduces derivation yields at least one when the coerced
partitions value is non-negative. -/
theorem nrStep_pos (c : Collab) (hasMap : Bool) (inp : List (List Url))
    (parts nr0 : Int) (h : nrStep c hasMap inp parts = Except.ok nr0)
    (hp : 0 ≤ parts) : 1 ≤ nr0 := by
  unfold nrStep at h
  split at h
  · injection h with h2
    subst h2
    split
    · omega
    next hz => omega
  · split at h
    · split at h
      · exact absurd h (by simp)
      next ids _ =>
        split at h
        next m _ =>
          injection h with h2
          omega
        · exact absurd h (by simp)
    · injection h with h2
      omega

/-- The merge_partitions step never lowers a positive reduce count below
one: it either keeps the derived value or forces exactly one. -/
theorem mergeStep_pos (mp : Bool) (inp : List (List Url)) (parts nr0 nr : Int)
    (h : mergeStep mp inp parts nr0 = Except.ok nr) (h0 : 1 ≤ nr0) :
    1 ≤ nr := by
  unfold mergeStep at h
  split at h
  · split at h
    · injection h with h2
      omega
    · exact absurd h (by simp)
  · injection h with h2
    omega

/-- Inversion of the scheduler step: on success the result is the merged
policy and its max_cores is at least one. -/
theorem schedStep_inv (ov : SchedulerOverride) (sc : Scheduler)
    (h : schedStep ov = Except.ok sc) :
    sc = mergeScheduler defaultScheduler ov ∧ ¬sc.max_cores < 1 := by
  unfold schedStep at h
  split at h
  · exact absurd h (by simp)
  next hge =>
    injection h with h2
    subst h2
    exact ⟨rfl, hge⟩

/-- Re-running the full construction on the field set of an already
constructed specification reproduces it exactly. -/
theorem construct_idem (c : Collab) (o : JobOpts) (S : JobDict)
    (hok : construct c o = Except.ok S) :
    construct c (toOpts S) = Except.ok S := by
  obtain ⟨nr0, nr, sc, h1, h2, h3, hS⟩ := construct_inv c o S hok
  obtain ⟨hsc, hge⟩ := schedStep_inv o.scheduler sc h3
  have hs2 : schedStep (toOverride sc) = Except.ok sc := by
    unfold schedStep
    simp only [mergeScheduler_toOverride]
    exact if_neg hge
  subst hS
  unfold construct
  simp only [toOpts, assemble, rmOf, coercePartitions_some]
  rw [normalizeInput_multi]
  simp only [h1, h2, hs2]

/-- Unpacking the record packed from a state amounts to re-running the
construction on that state, given a codec that round-trips. -/
theorem unpack_packRecord (Tok : Type) (enc : Val → Tok)
    (dec : Tok → Option Val) (c : Collab) (S : JobDict)
    (hcodec : ∀ v, dec (enc v) = some v) :
    unpack Tok dec c (packRecord Tok enc S) = construct c (toOpts S) := by
  unfold unpack packRecord
  simp only [hcodec, decOF, decF, decLF, decSS, decB, decI, decRF, decRM,
    decS]
  rfl

/-- Restoring a captured state of unique-name entries reproduces them,
given a codec that round-trips. -/
theorem setstate_getstate {PTok : Type} (penc : PVal → PTok)
    (pdec : PTok → Option PVal) (hc : ∀ v, pdec (penc v) = some v)
    (l : ParamsBag) :
    setstate pdec (l.map (fun kv => (kv.1, penc kv.2))) = some l := by
  induction l with
  | nil => rfl
  | cons kv t ih =>
    simp only [List.map_cons, setstate, hc, ih]

/-- C1 (amended): for every option set whose partitions value coerces to a
non-negative integer, a successful construction yields nr_reduces at least
one.  The restriction to non-negative partitions is forced by the
counterexample: construction accepts negative values unchecked. -/
theorem claim1_amended_thm (c : Collab) (o : JobOpts) (S : JobDict)
    (hp : 0 ≤ coercePartitions o.partitions)
    (hok : construct c o = Except.ok S) : 1 ≤ S.nr_reduces := by
  obtain ⟨nr0, nr, sc, h1, h2, h3, hS⟩ := construct_inv c o S hok
  have g1 := nrStep_pos c o.map.isSome _ _ nr0 h1 hp
  have g2 := mergeStep_pos o.merge_partitions _ _ nr0 nr h2 g1
  rw [hS]
  exact g2

/-- C1 counterexample: with a map function and partitions set to minus
one, construction succeeds and the resulting nr_reduces is minus one,
violating nr_reduces at least one. -/
theorem claim1_counterexample :
    construct cW oNegW = Except.ok sNegW ∧ sNegW.nr_reduces = -1 ∧
      sNegW.nr_reduces < 1 := by
  decide

/-- C1 witness: the default option set has non-negative partitions,
constructs successfully, and its nr_reduces is at least one. -/
theorem claim1_witness :
    0 ≤ coercePartitions defaultOpts.partitions ∧
      construct cW defaultOpts = Except.ok s1W ∧ 1 ≤ s1W.nr_reduces :=
  ⟨by decide, by decide,
    claim1_amended_thm cW defaultOpts s1W (by decide) (by decide)⟩

/-- C2: for a specification built with only transparent-key overrides,
packing leaves the specification unchanged and unpacking the packed record
(through a round-tripping codec) re-runs the full construction and
reproduces the specification field for field.  The discovery result is
assumed to carry no module source paths and file expansion of nothing is
nothing; otherwise pack merges module sources into required_files. -/
theorem claim2_thm (Tok : Type) (enc : Val → Tok) (dec : Tok → Option Val)
    (c : Collab) (p jh w ow : String) (inpv : List RawInput) (nrv : Int)
    (sch : SchedulerOverride) (mq rq : Bool) (S : JobDict)
    (hcodec : ∀ v, dec (enc v) = some v)
    (hok : construct c (transparentOverride p jh w ow inpv nrv sch mq rq) =
      Except.ok S)
    (hmods : modKvPaths S.required_modules = [])
    (hpf : c.pack_files [] = []) :
    (pack Tok enc c S).1 = S ∧
      unpack Tok dec c (pack Tok enc c S).2 = Except.ok S := by
  have hrf : S.required_files = RFiles.files [] := by
    obtain ⟨nr0, nr, sc, h1, h2, h3, hS⟩ := construct_inv _ _ _ hok
    rw [hS]
    rfl
  have hst : packState c S = S := by
    unfold packState
    rw [hmods, hpf, hrf]
    show ({ S with required_files := RFiles.files [] } = S)
    rw [← hrf]
  refine ⟨hst, ?_⟩
  have e : (pack Tok enc c S).2 = packRecord Tok enc S := by
    show packRecord Tok enc (packState c S) = packRecord Tok enc S
    rw [hst]
  rw [show (pack Tok enc c S).2 = packRecord Tok enc S from e,
    unpack_packRecord Tok enc dec c S hcodec]
  exact construct_idem c _ S hok

/-- C2 witness: a concrete transparent-only specification round-trips
through pack and unpack with the identity codec. -/
theorem claim2_witness :
    construct cW o2W = Except.ok s2W ∧
      (pack Val (fun v => v) cW s2W).1 = s2W ∧
      unpack Val some cW (pack Val (fun v => v) cW s2W).2 =
        Except.ok s2W := by
  have h := claim2_thm Val (fun v => v) some cW "j" "jobhome" "DISCO_WORKER"
    "own" [RawInput.single "http://x"] 0 {} false false s2W (fun v => rfl)
    (by decide) (by decide) rfl
  exact ⟨by decide, h.1, h.2⟩

/-- C3 (amended): when a map function is present and merge_partitions is
not requested, the derived nr_reduces equals partitions when positive and
one when partitions is unset or zero.  The merge_partitions restriction is
forced by the counterexample: a requested merge forces nr_reduces to one
even with positive partitions. -/
theorem claim3_amended_thm (c : Collab) (o : JobOpts) (S : JobDict)
    (hm : o.map.isSome = true) (hmp : o.merge_partitions = false)
    (hok : construct c o = Except.ok S) :
    (∀ q : Int, o.partitions = some q → 0 < q → S.nr_reduces = q) ∧
      ((o.partitions = none ∨ o.partitions = some 0) →
        S.nr_reduces = 1) := by
  obtain ⟨nr0, nr, sc, h1, h2, h3, hS⟩ := construct_inv c o S hok
  have hv : S.nr_reduces = nr := by rw [hS]; rfl
  unfold nrStep at h1
  simp only [hm, if_true] at h1
  injection h1 with h1
  unfold mergeStep at h2
  simp only [hmp, Bool.false_eq_true, if_false] at h2
  injection h2 with h2
  constructor
  · intro q hq hqpos
    rw [hv, ← h2, ← h1, hq]
    show (if (q : Int) = 0 then 1 else q) = q
    rw [if_neg (by omega)]
  · intro hcase
    rw [hv, ← h2, ← h1]
    rcases hcase with h | h <;> rw [h] <;> rfl

/-- C3 counterexample: a map with three partitions and merge_partitions
requested constructs successfully with nr_reduces one, not three. -/
theorem claim3_counterexample :
    construct cW oC3W = Except.ok sC3W ∧ sC3W.map.isSome = true ∧
      sC3W.partitions = 3 ∧ sC3W.nr_reduces = 1 ∧
      ¬sC3W.nr_reduces = 3 := by
  decide

/-- C3 witness: a map with five partitions and no merge yields five
reduces. -/
theorem claim3_witness :
    construct cW oC3bW = Except.ok sC3bW ∧ sC3bW.nr_reduces = 5 :=
  ⟨by decide,
    (claim3_amended_thm cW oC3bW sC3bW (by decide) (by decide)
      (by decide)).1 5 (by decide) (by decide)⟩

/-- C4 (amended): in a reduce-only construction over fully partitioned
input with merge_partitions not requested, nr_reduces is one plus the
maximum partition index gathered by the index reader over the first
replica of every input entry.  The merge_partitions restriction is forced
by the counterexample. -/
theorem claim4_amended_thm (c : Collab) (o : JobOpts) (S : JobDict)
    (ids : List Nat) (k : Nat)
    (hm : o.map = none) (hmp : o.merge_partitions = false)
    (hpart : truthy (inputIsPartitionedOpt
      (normalizeInput o.input o.map.isSome)) = true)
    (hg : gatherIndices c (normalizeInput o.input o.map.isSome) =
      Except.ok ids)
    (hmax : maxNat? ids = some k)
    (hok : construct c o = Except.ok S) :
    S.nr_reduces = 1 + k := by
  obtain ⟨nr0, nr, sc, h1, h2, h3, hS⟩ := construct_inv c o S hok
  have hv : S.nr_reduces = nr := by rw [hS]; rfl
  have hm2 : o.map.isSome = false := by rw [hm]; rfl
  rw [hm2] at hpart hg h1 h2
  unfold nrStep at h1
  simp only [Bool.false_eq_true, if_false, hpart, if_true, hg, hmax] at h1
  injection h1 with h1
  unfold mergeStep at h2
  simp only [hmp, Bool.false_eq_true, if_false] at h2
  injection h2 with h2
  rw [hv, ← h2, ← h1]

/-- C4 counterexample: the same reduce-only partitioned input with
merge_partitions requested constructs with nr_reduces one, not one plus
the maximum index two. -/
theorem claim4_counterexample :
    construct cR o4mW = Except.ok s4mW ∧ o4mW.map = none ∧
      truthy (inputIsPartitionedOpt s4mW.input) = true ∧
      gatherIndices cR s4mW.input = Except.ok [0, 2, 0, 2] ∧
      maxNat? [0, 2, 0, 2] = some 2 ∧ s4mW.nr_reduces = 1 ∧
      ¬s4mW.nr_reduces = 1 + 2 := by
  decide

/-- C4 witness: a reduce-only job over two partitioned directories whose
indices reach two gets three reduces. -/
theorem claim4_witness :
    construct cR o4W = Except.ok s4W ∧ s4W.nr_reduces = 1 + 2 :=
  ⟨by decide,
    claim4_amended_thm cR o4W s4W [0, 2, 0, 2] 2 (by decide) (by decide)
      (by decide) (by decide) (by decide) (by decide)⟩

/-- C5 (code bug): requesting merge_partitions with partitions zero and
non-partitioned input makes construction fail, but with a NameError (the
module never imports DiscoError), not with the intended configuration
error. -/
theorem claim5_thm :
    construct cW oMergeBadW =
      Except.error (JobError.nameErr "DiscoError") := by
  decide

/-- C6 (code bug): a scheduler override with max_cores zero makes
construction fail, but with a NameError (the module never imports
DiscoError), not with the intended configuration error. -/
theorem claim6_thm :
    construct cW oSched0W =
      Except.error (JobError.nameErr "DiscoError") := by
  decide

/-- C7: capturing a Parameter Bag keeps exactly the names that do not
start with an underscore, and restoring the captured mapping through a
round-tripping codec reproduces the non-private attributes with their
original names and values. -/
theorem claim7_thm {PTok : Type} (penc : PVal → PTok)
    (pdec : PTok → Option PVal) (p : ParamsBag)
    (hc : ∀ v, pdec (penc v) = some v) :
    (getstate penc p).map Prod.fst =
      (p.filter (fun kv => !(strStartsWith kv.1 "_"))).map Prod.fst ∧
    setstate pdec (getstate penc p) =
      some (p.filter (fun kv => !(strStartsWith kv.1 "_"))) := by
  constructor
  · unfold getstate
    rw [List.map_map]
    rfl
  · unfold getstate
    exact setstate_getstate penc pdec hc _

/-- C7 witness: the bag a = 1, b = "x", _hidden = 99 captures to exactly
the names a and b and restores to those two attributes with their
original values. -/
theorem claim7_witness :
    ((getstate (fun v : PVal => v) pW).map Prod.fst =
      (pW.filter (fun kv => !(strStartsWith kv.1 "_"))).map Prod.fst) ∧
    setstate some (getstate (fun v : PVal => v) pW) =
      some (pW.filter (fun kv => !(strStartsWith kv.1 "_"))) ∧
    pW.filter (fun kv => !(strStartsWith kv.1 "_")) =
      [("a", PVal.pint 1), ("b", PVal.pstr "x")] := by
  have h := claim7_thm (fun v : PVal => v) some pW (fun v => rfl)
  exact ⟨h.1, h.2, by decide⟩

/-- C8: for every constructed specification, input_is_partitioned is
truthy exactly when the normalized input is non-empty and every URL of
every entry starts with the partitioned-directory scheme. -/
theorem claim8_thm (c : Collab) (o : JobOpts) (S : JobDict)
    (_hok : construct c o = Except.ok S) :
    truthy (inputIsPartitionedOpt S.input) = true ↔
      S.input ≠ [] ∧
        ∀ urls ∈ S.input, ∀ u ∈ urls, strStartsWith u "dir://" = true := by
  by_cases h : S.input.isEmpty
  · have he : S.input = [] := List.isEmpty_iff.mp h
    simp [inputIsPartitionedOpt, h, truthy, he]
  · have hne : S.input ≠ [] := by simpa [List.isEmpty_iff] using h
    simp [inputIsPartitionedOpt, h, truthy, hne, List.all_eq_true]

/-- C8 witness: a constructed specification over one partitioned
directory satisfies the equivalence. -/
theorem claim8_witness :
    construct cR o8W = Except.ok s8W ∧
      (truthy (inputIsPartitionedOpt s8W.input) = true ↔
        s8W.input ≠ [] ∧
          ∀ urls ∈ s8W.input, ∀ u ∈ urls,
            strStartsWith u "dir://" = true) :=
  ⟨by decide, claim8_thm cR o8W s8W (by decide)⟩

/-- C9 (amended): pack touches no field of the specification except
required_files, and a second pack on the already packed state changes
nothing and produces the same record.  The exemption for required_files
is forced by the counterexample: pack resolves it in place. -/
theorem claim9_amended_thm (Tok : Type) (enc : Val → Tok) (c : Collab)
    (S : JobDict) :
    (pack Tok enc c S).1 =
      { S with required_files := (pack Tok enc c S).1.required_files } ∧
    pack Tok enc c ((pack Tok enc c S).1) = pack Tok enc c S := by
  constructor
  · rfl
  · show pack Tok enc c (packState c S) = pack Tok enc c S
    unfold pack
    rw [packState_idem]

/-- C9 counterexample: a specification whose required_files is an empty
path list has it replaced by an empty mapping during pack, so the
specification is not unchanged. -/
theorem claim9_counterexample :
    construct cW o9W = Except.ok s9W ∧
      s9W.required_files = RFiles.paths [] ∧
      (pack Val (fun v => v) cW s9W).1.required_files = RFiles.files [] ∧
      ¬(pack Val (fun v => v) cW s9W).1 = s9W := by
  decide

/-- C10 (amended): normalization promotes each single descriptor to a
one-element sequence and keeps each replica list, preserving outer and
inner order, and every normalized entry arising from a single descriptor
or from a non-empty replica list is non-empty.  The non-emptiness
restriction is forced by the counterexample: an empty replica list
normalizes to an empty entry. -/
theorem claim10_amended_thm (inp : List RawInput) (b : Bool)
    (h : ∀ us, RawInput.multi us ∈ inp → us ≠ []) :
    normalizeInput inp b = inp.map iterify ∧
    (∀ e ∈ normalizeInput inp b, e ≠ []) ∧
    normalizeInput [RawInput.single "u1", RawInput.multi ["u2a", "u2b"]] b =
      [["u1"], ["u2a", "u2b"]] := by
  refine ⟨normalizeInput_eq inp b, ?_, by rw [normalizeInput_eq]; rfl⟩
  rw [normalizeInput_eq]
  intro e he
  rw [List.mem_map] at he
  obtain ⟨i, hi, hie⟩ := he
  subst hie
  cases i with
  | single u => simp [iterify]
  | multi us => simpa [iterify] using h us hi

/-- C10 counterexample: an empty replica list normalizes to an entry that
is the empty sequence. -/
theorem claim10_counterexample :
    normalizeInput [RawInput.multi []] true = [[]] ∧
      [] ∈ normalizeInput [RawInput.multi []] true := by
  decide

/-- C10 witness: the specification example input normalizes as stated and
every entry is non-empty. -/
theorem claim10_witness :
    normalizeInput [RawInput.single "u1", RawInput.multi ["u2a", "u2b"]]
        true = [["u1"], ["u2a", "u2b"]] ∧
      ∀ e ∈ normalizeInput
        [RawInput.single "u1", RawInput.multi ["u2a", "u2b"]] true,
        e ≠ [] := by
  have h := claim10_amended_thm
    [RawInput.single "u1", RawInput.multi ["u2a", "u2b"]] true
    (by
      intro us hus
      simp only [List.mem_cons, List.not_mem_nil, or_false] at hus
      rcases hus with h | h
      · exact absurd h (by simp)
      · injection h with h2
        subst h2
        decide)
  exact ⟨h.2.2, h.2.1⟩

end DiscoJob
